import Mathlib

/-!
# FileShare storage engine: a shallow embedding and verification

This development embeds the file & folder storage engine of the FileShare
backend (file lifecycle, folder hierarchy with materialized paths, the
per-user quota ledger, share access control and the duplicate index) as pure
Lean functions over an explicit relational state, and proves or refutes the
specified properties against that embedding.

Conventions of the embedding:
* Each service function that runs inside a database transaction is modelled as
  a function of type state to Except error state; an error value denotes a
  transaction that was rolled back, leaving the database unchanged (applyTx
  makes this explicit).
* SQL numeric columns are modelled as Int (sizes as Nat coerced where added);
  the users table carries the CHECK constraint storage_used >= 0 added by
  migration 003_fix_storage_used.sql: an UPDATE that would drive the counter
  negative aborts the whole transaction (checkViolation).
* SQL LIKE patterns of the form p || percent over materialized folder paths
  are modelled as string-prefix tests (folder paths contain no wildcard
  characters), and the REPLACE function on strings is modelled by sqlReplace,
  a left-to-right non-overlapping replace-all, matching PostgreSQL REPLACE.
* bcrypt password comparison is an abstract boolean comparison parameter, and
  the content hash is an abstract function from byte lists to Nat.
-/

/-! ## String helpers (List Char based so that the kernel can evaluate them) -/

/-- Left-to-right, non-overlapping replace-all over character lists, the
semantics of PostgreSQL REPLACE.  Fuel is the length of the subject string;
each step consumes at least one character. -/
def replaceList : Nat → List Char → List Char → List Char → List Char
  | 0, s, _, _ => s
  | _ + 1, [], _, _ => []
  | fuel + 1, c :: rest, old, new =>
    if old ≠ [] ∧ old.isPrefixOf (c :: rest) then
      new ++ replaceList fuel ((c :: rest).drop old.length) old new
    else
      c :: replaceList fuel rest old new

/-- REPLACE(s, old, new) as used by the folder path-rewrite UPDATE. -/
def sqlReplace (s old new : String) : String :=
  ⟨replaceList s.data.length s.data old.data new.data⟩

/-- Does pat occur as a leading substring of s?  Models path LIKE pat || percent. -/
def strStarts (pat s : String) : Bool :=
  pat.data.isPrefixOf s.data

/-- Split a character list at every slash (the JS path.split call). -/
def splitSlash : List Char → List Char → List (List Char)
  | [], acc => [acc.reverse]
  | c :: rest, acc =>
    if c = '/' then acc.reverse :: splitSlash rest [] else splitSlash rest (c :: acc)

/-- path.split(slash).filter(Boolean): the non-empty segments of a path. -/
def pathSegments (s : String) : List (List Char) :=
  (splitSlash s.data []).filter (fun seg => seg ≠ [])

/-- slash + parts.join(slash) + slash, rebuilding a materialized path. -/
def joinSegments (parts : List (List Char)) : String :=
  ⟨parts.foldl (fun acc p => acc ++ p ++ ['/']) ['/']⟩

/-! ## Data model: the relational rows the engine operates on -/

/-- A row of the users table (id, quota ledger columns). -/
structure UserRow where
  uid : Nat
  storage_used : Int
  storage_quota : Int
deriving DecidableEq, Repr

/-- A row of the folders table with its materialized path. -/
structure FolderRow where
  foid : Nat
  user_id : Nat
  parent_id : Option Nat
  name : String
  path : String
  is_deleted : Bool
deriving DecidableEq, Repr

/-- A row of the files table (current version). -/
structure FileRow where
  fid : Nat
  user_id : Nat
  folder_id : Option Nat
  size : Nat
  hash : Nat
  is_deleted : Bool
deriving DecidableEq, Repr

/-- A row of the append-only file_versions table. -/
structure VersionRow where
  file_id : Nat
  version : Nat
  size : Nat
  hash : Nat
deriving DecidableEq, Repr

/-- A row of the shares table. -/
structure ShareRow where
  sid : Nat
  file_id : Nat
  user_id : Nat
  share_token : String
  password_hash : Option String
  expires_at : Option Int
  max_downloads : Option Nat
  download_count : Nat
  is_active : Bool
deriving DecidableEq, Repr

/-- The whole database state plus the storage backend (key, bytes) objects. -/
structure DB where
  users : List UserRow
  folders : List FolderRow
  files : List FileRow
  file_versions : List VersionRow
  shares : List ShareRow
  backend : List (Nat × List Nat)
deriving DecidableEq, Repr

/-- Failure taxonomy of the embedded transactions. -/
inductive DbError where
  | userNotFound
  | fileNotFound
  | folderNotFound
  | parentNotFound
  | nameConflict
  | cannotMoveToSelf
  | cannotMoveToChild
  | quotaExceeded
  | checkViolation
deriving DecidableEq, Repr

deriving instance DecidableEq for Except

/-- Run a transaction: on error the database is unchanged (ROLLBACK). -/
def applyTx (db : DB) (tx : DB → Except DbError DB) : DB :=
  match tx db with
  | .ok db2 => db2
  | .error _ => db

/-! ## Query helpers -/

/-- SELECT * FROM users WHERE id = uid. -/
def findUser (db : DB) (uid : Nat) : Option UserRow :=
  db.users.find? (fun u => u.uid == uid)

/-- The storage_used counter of a user, if the user exists. -/
def storageUsedOf (db : DB) (uid : Nat) : Option Int :=
  (findUser db uid).map (fun u => u.storage_used)

/-- The non-deleted files of a user, in row order. -/
def userLiveFiles (db : DB) (uid : Nat) : List FileRow :=
  db.files.filter (fun f => f.user_id == uid && !f.is_deleted)

/-- Total bytes of the non-deleted files of a user (ground truth the quota
ledger is supposed to track). -/
def liveBytes (db : DB) (uid : Nat) : Int :=
  ((userLiveFiles db uid).map (fun f => (f.size : Int))).sum

/-- UPDATE users SET storage_used = storage_used + delta WHERE id = uid,
subject to the CHECK (storage_used >= 0) constraint of migration 003; a
violating update aborts the surrounding transaction. -/
def storageAdjust (db : DB) (uid : Nat) (delta : Int) : Except DbError DB :=
  match db.users.find? (fun u => u.uid == uid) with
  | none => .ok db
  | some u =>
    if u.storage_used + delta < 0 then
      .error .checkViolation
    else
      .ok { db with
            users := db.users.map (fun v =>
              if v.uid == uid then { v with storage_used := v.storage_used + delta } else v) }

/-! ## File lifecycle (fileService) -/

/-- fileService.uploadFile: hash the bytes, check the quota (strict over-quota
check storage_used + size > storage_quota), write the bytes to the storage
backend, insert the File row and the first FileVersion row, and charge the
ledger — all in one transaction.  On quota failure the backend is never
written and nothing is committed. -/
def uploadFile (hashFn : List Nat → Nat) (db : DB) (userId : Nat)
    (bytes : List Nat) (folderId : Option Nat) (newFileId : Nat) :
    Except DbError DB :=
  match db.users.find? (fun u => u.uid == userId) with
  | none => .error .userNotFound
  | some u =>
    let size := bytes.length
    if u.storage_used + (size : Int) > u.storage_quota then
      .error .quotaExceeded
    else
      let h := hashFn bytes
      let fileRow : FileRow :=
        { fid := newFileId, user_id := userId, folder_id := folderId,
          size := size, hash := h, is_deleted := false }
      let db2 : DB :=
        { db with
          backend := db.backend ++ [(newFileId, bytes)],
          files := db.files ++ [fileRow],
          file_versions := db.file_versions ++
            [{ file_id := newFileId, version := 1, size := size, hash := h }] }
      storageAdjust db2 userId (size : Int)

/-- fileService.deleteFile: soft-delete one non-deleted file of the user and
release its size from the ledger in the same transaction. -/
def deleteFile (db : DB) (fileId : Nat) (userId : Nat) : Except DbError DB :=
  match db.files.find? (fun f => f.fid == fileId && f.user_id == userId && !f.is_deleted) with
  | none => .error .fileNotFound
  | some f =>
    let db2 : DB :=
      { db with files := db.files.map (fun g =>
          if g.fid == fileId then { g with is_deleted := true } else g) }
    storageAdjust db2 userId (-(f.size : Int))

/-! ## Folder hierarchy (folderService, bundled with duplicateDetection.ts) -/

/-- folderService.createFolder: validate the parent, reject duplicate sibling
names among non-deleted folders, compute path from the parent path. -/
def createFolder (db : DB) (userId : Nat) (name : String)
    (parentId : Option Nat) (newFolderId : Nat) : Except DbError DB :=
  match parentId with
  | some pid =>
    match db.folders.find? (fun fo => fo.foid == pid && fo.user_id == userId && !fo.is_deleted) with
    | none => .error .parentNotFound
    | some parent =>
      if db.folders.any (fun fo =>
          fo.user_id == userId && fo.name == name &&
          fo.parent_id == parentId && !fo.is_deleted) then
        .error .nameConflict
      else
        .ok { db with folders := db.folders ++
          [{ foid := newFolderId, user_id := userId, parent_id := parentId,
             name := name, path := parent.path ++ name ++ "/", is_deleted := false }] }
  | none =>
    if db.folders.any (fun fo =>
        fo.user_id == userId && fo.name == name &&
        fo.parent_id == none && !fo.is_deleted) then
      .error .nameConflict
    else
      .ok { db with folders := db.folders ++
        [{ foid := newFolderId, user_id := userId, parent_id := none,
           name := name, path := "/" ++ name ++ "/", is_deleted := false }] }

/-- The two-statement path rewrite shared by renameFolder and moveFolder:
first the folder row itself gets newPath (and, for rename, newName; for move,
newParentId), then UPDATE folders SET path = REPLACE(path, oldPath, newPath)
WHERE path LIKE oldPath || percent.  Note the second UPDATE has no user_id
filter in the source. -/
def rewritePaths (folders : List FolderRow) (oldPath newPath : String) :
    List FolderRow :=
  folders.map (fun fo =>
    if strStarts oldPath fo.path then
      { fo with path := sqlReplace fo.path oldPath newPath }
    else fo)

/-- folderService.renameFolder: look up the live folder, reject sibling name
conflicts, recompute this folder's path by replacing the last path segment,
update the row, then rewrite descendant paths with REPLACE. -/
def renameFolder (db : DB) (folderId : Nat) (userId : Nat) (newName : String) :
    Except DbError DB :=
  match db.folders.find? (fun fo => fo.foid == folderId && fo.user_id == userId && !fo.is_deleted) with
  | none => .error .folderNotFound
  | some folder =>
    if db.folders.any (fun fo =>
        fo.user_id == userId && fo.name == newName &&
        fo.parent_id == folder.parent_id && fo.foid != folderId && !fo.is_deleted) then
      .error .nameConflict
    else
      let oldPath := folder.path
      let parts := pathSegments oldPath
      let parts2 := parts.dropLast ++ [newName.data]
      let newPath := joinSegments parts2
      let folders2 := db.folders.map (fun fo =>
        if fo.foid == folderId then { fo with name := newName, path := newPath } else fo)
      .ok { db with folders := rewritePaths folders2 oldPath newPath }

/-- folderService.moveFolder: look up the live folder; reject moving onto
itself (id equality) and into its own subtree (path-prefix containment of the
live destination's path); reject destination name conflicts; then set
parent_id and path and rewrite descendant paths with REPLACE. -/
def moveFolder (db : DB) (folderId : Nat) (userId : Nat)
    (newParentId : Option Nat) : Except DbError DB :=
  match db.folders.find? (fun fo => fo.foid == folderId && fo.user_id == userId && !fo.is_deleted) with
  | none => .error .folderNotFound
  | some folder =>
    if newParentId == some folderId then
      .error .cannotMoveToSelf
    else
      let checkAndCommit : String → Except DbError DB := fun parentPath =>
        if db.folders.any (fun fo =>
            fo.user_id == userId && fo.name == folder.name &&
            fo.parent_id == newParentId && fo.foid != folderId && !fo.is_deleted) then
          .error .nameConflict
        else
          let oldPath := folder.path
          let newPath := parentPath ++ folder.name ++ "/"
          let folders2 := db.folders.map (fun fo =>
            if fo.foid == folderId then
              { fo with parent_id := newParentId, path := newPath }
            else fo)
          .ok { db with folders := rewritePaths folders2 oldPath newPath }
      match newParentId with
      | some pid =>
        match db.folders.find? (fun fo => fo.foid == pid && fo.user_id == userId && !fo.is_deleted) with
        | none => .error .parentNotFound
        | some parent =>
          if strStarts folder.path parent.path then
            .error .cannotMoveToChild
          else
            checkAndCommit parent.path
      | none => checkAndCommit "/"

/-- Does a file row sit in one of the given folders (folder_id IN set)? -/
def inFolderSet (ids : List Nat) (f : FileRow) : Bool :=
  match f.folder_id with
  | some fo => ids.contains fo
  | none => false

/-- folderService.deleteFolder: soft-delete the folder and every folder whose
path has the folder's path as a prefix (id = folderId OR path LIKE ...),
soft-delete every file whose folder_id lies in that folder set (with no
is_deleted filter), then subtract from storage_used the summed size of every
file in that folder set that is marked deleted after the update — which is
every file in the set, whether or not it was already soft-deleted before. -/
def deleteFolder (db : DB) (folderId : Nat) (userId : Nat) : Except DbError DB :=
  match db.folders.find? (fun fo => fo.foid == folderId && fo.user_id == userId && !fo.is_deleted) with
  | none => .error .folderNotFound
  | some folder =>
    let inSubtree : FolderRow → Bool := fun fo =>
      (fo.foid == folderId || strStarts folder.path fo.path) && fo.user_id == userId
    let subtreeIds := (db.folders.filter inSubtree).map (fun fo => fo.foid)
    let folders2 := db.folders.map (fun fo =>
      if inSubtree fo then { fo with is_deleted := true } else fo)
    let files2 := db.files.map (fun f =>
      if inFolderSet subtreeIds f then { f with is_deleted := true } else f)
    let totalSize : Int :=
      ((files2.filter (fun f => inFolderSet subtreeIds f && f.is_deleted)).map
        (fun f => (f.size : Int))).sum
    let db2 : DB := { db with folders := folders2, files := files2 }
    if totalSize > 0 then storageAdjust db2 userId (-totalSize) else .ok db2

/-! ## Share access control (shareService, share controller) -/

/-- Outcome of shareService.validateShare. -/
inductive ShareCheck where
  | notFound
  | notActive
  | expired
  | limitReached
  | passwordRequired
  | invalidPassword
  | valid (s : ShareRow)
deriving DecidableEq, Repr

/-- shareService.getShareByToken. -/
def getShareByToken (db : DB) (token : String) : Option ShareRow :=
  db.shares.find? (fun s => s.share_token == token)

/-- Has the share expired: expires_at is set and lies strictly before now. -/
def shareExpired (s : ShareRow) (now : Int) : Bool :=
  match s.expires_at with
  | some t => decide (t < now)
  | none => false

/-- Has the share exhausted its download limit: max_downloads is set and
download_count has reached it. -/
def shareExhausted (s : ShareRow) : Bool :=
  match s.max_downloads with
  | some m => decide (s.download_count ≥ m)
  | none => false

/-- shareService.validateShare: existence, then is_active, then expiry
(expires_at strictly before now), then the download limit
(download_count >= max_downloads when a limit is set), then the password.
bcmp is the bcrypt comparison; now is the clock read. -/
def validateShare (db : DB) (bcmp : String → String → Bool) (now : Int)
    (token : String) (password : Option String) : ShareCheck :=
  match getShareByToken db token with
  | none => .notFound
  | some share =>
    if !share.is_active then .notActive
    else if shareExpired share now then .expired
    else if shareExhausted share then .limitReached
    else
      match share.password_hash with
      | none => .valid share
      | some h =>
        match password with
        | none => .passwordRequired
        | some p => if bcmp p h then .valid share else .invalidPassword

/-- Result of the public metadata endpoint getSharedFile. -/
inductive SharedFileResult where
  | denied (c : ShareCheck)
  | fileGone
  | info (f : FileRow)
deriving DecidableEq, Repr

/-- shareService.getSharedFile: validate the token, then re-resolve the file
with is_deleted = false joined against its owner row; a soft-deleted or
missing file is reported as gone even for a fully valid share. -/
def getSharedFile (db : DB) (bcmp : String → String → Bool) (now : Int)
    (token : String) (password : Option String) : SharedFileResult :=
  match validateShare db bcmp now token password with
  | .valid share =>
    match db.files.find? (fun f => f.fid == share.file_id && !f.is_deleted) with
    | none => .fileGone
    | some f =>
      if db.users.any (fun u => u.uid == f.user_id) then .info f else .fileGone
  | c => .denied c

/-- shareService.incrementDownloadCount: an unconditional atomic increment of
download_count, with no cap condition in the UPDATE. -/
def incrementDownloadCount (db : DB) (shareId : Nat) : DB :=
  { db with shares := db.shares.map (fun s =>
      if s.sid == shareId then { s with download_count := s.download_count + 1 } else s) }

/-- Result of the public download endpoint. -/
inductive DownloadResult where
  | denied (c : ShareCheck)
  | fileMissing
  | served (fileId : Nat)
deriving DecidableEq, Repr

/-- shareController.downloadSharedFile: validate, re-resolve the file with
getFileById (is_deleted = false), then increment the download count and serve
the bytes.  Validation and increment are separate statements in the source;
this function is their sequential composition. -/
def downloadSharedFile (db : DB) (bcmp : String → String → Bool) (now : Int)
    (token : String) (password : Option String) : DB × DownloadResult :=
  match validateShare db bcmp now token password with
  | .valid share =>
    match db.files.find? (fun f => f.fid == share.file_id && !f.is_deleted) with
    | none => (db, .fileMissing)
    | some f => (incrementDownloadCount db share.sid, .served f.fid)
  | c => (db, .denied c)

/-! ## Duplicate index (duplicateDetection.ts) -/

/-- duplicateDetection.findDuplicates, projected to its group structure: the
non-deleted files of the user are grouped by hash and every group with more
than one member is a duplicate set.  (The source orders rows by hash and
created_at and also reports count statistics; only group membership matters
to the properties below.) -/
def findDuplicates (db : DB) (userId : Nat) : List (List FileRow) :=
  let live := userLiveFiles db userId
  ((live.map (fun f => f.hash)).dedup.filter
      (fun h => (live.filter (fun f => f.hash == h)).length > 1)).map
    (fun h => live.filter (fun f => f.hash == h))

/-- duplicateDetection.deleteDuplicates: sum the sizes of the non-deleted
files of the user among the requested ids, soft-delete exactly those rows,
and subtract the sum from storage_used when it is positive.  Returns the new
state, the deleted row count and the space freed. -/
def deleteDuplicates (db : DB) (userId : Nat) (fileIds : List Nat) :
    Except DbError (DB × Nat × Int) :=
  let matched := db.files.filter (fun f =>
    fileIds.contains f.fid && f.user_id == userId && !f.is_deleted)
  let spaceFreed : Int := (matched.map (fun f => (f.size : Int))).sum
  let files2 := db.files.map (fun f =>
    if fileIds.contains f.fid && f.user_id == userId && !f.is_deleted then
      { f with is_deleted := true }
    else f)
  let db2 : DB := { db with files := files2 }
  if spaceFreed > 0 then
    (storageAdjust db2 userId (-spaceFreed)).map (fun db3 => (db3, matched.length, spaceFreed))
  else
    .ok (db2, matched.length, spaceFreed)

/-! ## Derived notions used by the properties -/

/-- Does some row with this file id carry is_deleted = true in this state? -/
def deletedIn (db : DB) (fid : Nat) : Bool :=
  db.files.any (fun f => f.fid == fid && f.is_deleted)

/-- Bytes of the files that a state change transitioned from non-deleted to
deleted: the files live in pre whose id is deleted in post. -/
def transitionedBytes (pre post : DB) : Int :=
  ((pre.files.filter (fun f => !f.is_deleted && deletedIn post f.fid)).map
    (fun f => (f.size : Int))).sum

/-- The materialized-path consistency of one folder row: its path equals its
parent's path followed by its own name and a slash (root folders: a slash,
the name, a slash). -/
def pathOk (db : DB) (fo : FolderRow) : Bool :=
  match fo.parent_id with
  | none => fo.path == "/" ++ fo.name ++ "/"
  | some pid =>
    match db.folders.find? (fun p => p.foid == pid) with
    | none => false
    | some p => fo.path == p.path ++ fo.name ++ "/"

/-- Path consistency for every non-deleted folder of the state. -/
def pathInvariant (db : DB) : Bool :=
  db.folders.all (fun fo => fo.is_deleted || pathOk db fo)

/-! ## Concrete states used by the counterexamples and witnesses -/

/-- A concrete content-hash function for the ground scenarios. -/
def demoHash (b : List Nat) : Nat :=
  b.foldl (fun a x => a * 31 + x + 1) 7

/-- A concrete bcrypt comparison for the ground scenarios: the stored hash is
taken to be the password itself. -/
def eqCmp : String → String → Bool := fun p h => p == h

/-- One user with an empty folder A and a clean ledger. -/
def c1db0 : DB :=
  { users := [{ uid := 1, storage_used := 0, storage_quota := 100 }],
    folders := [{ foid := 1, user_id := 1, parent_id := none, name := "A",
                  path := "/A/", is_deleted := false }],
    files := [], file_versions := [], shares := [], backend := [] }

/-- Upload a 5-byte file into folder A, soft-delete it, upload a 7-byte file
at the root, then delete folder A — a legal sequence of engine operations. -/
def c1chain : Except DbError DB := do
  let d1 ← uploadFile demoHash c1db0 1 [0, 0, 0, 0, 0] (some 1) 10
  let d2 ← deleteFile d1 10 1
  let d3 ← uploadFile demoHash d2 1 [1, 1, 1, 1, 1, 1, 1] none 11
  deleteFolder d3 1 1

/-- The ledger and ground truth reached by c1chain, if it commits. -/
def c1result : Option (Option Int × Int) :=
  match c1chain with
  | .ok db => some (storageUsedOf db 1, liveBytes db 1)
  | .error _ => none

/-- A user whose folder A holds one already-soft-deleted 4-byte file and
nothing else, with a consistent ledger of 0 bytes. -/
def c1clampDb : DB :=
  { users := [{ uid := 1, storage_used := 0, storage_quota := 100 }],
    folders := [{ foid := 1, user_id := 1, parent_id := none, name := "A",
                  path := "/A/", is_deleted := false }],
    files := [{ fid := 10, user_id := 1, folder_id := some 1, size := 4,
                hash := 0, is_deleted := true }],
    file_versions := [], shares := [], backend := [] }

/-- A user whose folder A holds one already-soft-deleted 4-byte file and one
live 6-byte file; elsewhere the user has 4 more live bytes, so the ledger
consistently reads 10. -/
def c2db0 : DB :=
  { users := [{ uid := 1, storage_used := 10, storage_quota := 100 }],
    folders := [{ foid := 1, user_id := 1, parent_id := none, name := "A",
                  path := "/A/", is_deleted := false }],
    files := [{ fid := 10, user_id := 1, folder_id := some 1, size := 4,
                hash := 0, is_deleted := true },
              { fid := 11, user_id := 1, folder_id := some 1, size := 6,
                hash := 0, is_deleted := false },
              { fid := 12, user_id := 1, folder_id := none, size := 4,
                hash := 0, is_deleted := false }],
    file_versions := [], shares := [], backend := [] }

/-- The outcome of deleting folder A of c2db0: the final ledger value, the
bytes actually transitioned to deleted, and the deletion flags. -/
def c2result : Option (Option Int × Int × Bool × Bool) :=
  match deleteFolder c2db0 1 1 with
  | .ok db =>
    some (storageUsedOf db 1, transitionedBytes c2db0 db,
          db.folders.all (fun fo => fo.is_deleted),
          db.files.all (fun f => f.folder_id != some 1 || f.is_deleted))
  | .error _ => none

/-- A path-consistent tree /A/, /A/X/, /A/X/A/ — the renamed folder's name
recurs deeper in the subtree. -/
def c3db0 : DB :=
  { users := [{ uid := 1, storage_used := 0, storage_quota := 100 }],
    folders := [{ foid := 1, user_id := 1, parent_id := none, name := "A",
                  path := "/A/", is_deleted := false },
                { foid := 2, user_id := 1, parent_id := some 1, name := "X",
                  path := "/A/X/", is_deleted := false },
                { foid := 3, user_id := 1, parent_id := some 2, name := "A",
                  path := "/A/X/A/", is_deleted := false }],
    files := [], file_versions := [], shares := [], backend := [] }

/-- The paths after renaming folder 1 of c3db0 to B, with the invariant flag. -/
def c3result : Option (Bool × List String) :=
  match renameFolder c3db0 1 1 "B" with
  | .ok db => some (pathInvariant db, db.folders.map (fun fo => fo.path))
  | .error _ => none

/-- A share with max_downloads = 1 and download_count = 0 on a live file. -/
def c6share : ShareRow :=
  { sid := 30, file_id := 20, user_id := 1, share_token := "t",
    password_hash := none, expires_at := none, max_downloads := some 1,
    download_count := 0, is_active := true }

/-- The state holding c6share and its file. -/
def c6db0 : DB :=
  { users := [{ uid := 1, storage_used := 3, storage_quota := 100 }],
    folders := [],
    files := [{ fid := 20, user_id := 1, folder_id := none, size := 3,
                hash := 5, is_deleted := false }],
    file_versions := [], shares := [c6share], backend := [] }

/-! ## Theorems -/

/-- C1: Quota conservation fails on the code.  The legal sequence of c1chain
(upload 5 bytes into A, soft-delete that file, upload 7 bytes at the root,
delete folder A) commits and leaves storage_used = 2 while the user's
non-deleted files hold 7 bytes: deleteFolder re-releases the bytes of the
file that was already soft-deleted.  Moreover negative adjustments do not
clamp at a zero floor: on c1clampDb the same cascade drives the counter
negative and the transaction aborts with a CHECK-constraint violation
instead of clamping. -/
theorem quota_conservation_fails :
    c1result = some (some 2, 7) ∧ (2 : Int) ≠ 7 ∧
    deleteFolder c1clampDb 1 1 = .error .checkViolation := by
  refine ⟨by decide, by decide, by decide⟩

/-- C2: Cascade quota release over-counts.  Deleting folder A of c2db0
transitions only the live 6-byte file to deleted, yet the ledger drops from
10 to 0: the 4 bytes of the file that was already soft-deleted before the
cascade are subtracted again.  The cascade itself is complete — every folder
in the subtree and every file housed there is marked deleted. -/
theorem cascade_release_overcounts :
    storageUsedOf c2db0 1 = some 10 ∧
    c2result = some (some 0, 6, true, true) ∧
    (10 - 6 : Int) ≠ 0 := by
  refine ⟨by decide, by decide, by decide⟩

/-- C3: Path consistency breaks under rename.  c3db0 satisfies the path
invariant; renaming folder /A/ to B rewrites every occurrence of /A/ in each
descendant path (SQL REPLACE), so /A/X/A/ becomes /B/X/B/ instead of the
prefix-rewrite /B/X/A/, and the invariant no longer holds. -/
theorem path_consistency_breaks :
    pathInvariant c3db0 = true ∧
    c3result = some (false, ["/B/", "/B/X/", "/B/X/B/"]) := by
  refine ⟨by decide, by decide⟩

/-- C6: The download cap is not enforced against concurrent admission.
Sequentially the cap behaves: the first download on c6db0 (max_downloads = 1)
is served, the second is denied with the limit reached while is_active is
still true.  But validation is a plain read and the increment is unguarded:
two requests that both validate against the same snapshot each increment
afterwards, leaving download_count = 2 above the cap of 1. -/
theorem download_cap_exceeded_by_race :
    (downloadSharedFile c6db0 eqCmp 0 "t" none).2 = .served 20 ∧
    (downloadSharedFile (downloadSharedFile c6db0 eqCmp 0 "t" none).1
      eqCmp 0 "t" none).2 = .denied .limitReached ∧
    (getShareByToken (downloadSharedFile c6db0 eqCmp 0 "t" none).1 "t").map
      (fun s => s.is_active) = some true ∧
    validateShare c6db0 eqCmp 0 "t" none = .valid c6share ∧
    (getShareByToken
        (incrementDownloadCount (incrementDownloadCount c6db0 c6share.sid)
          c6share.sid) "t").map
      (fun s => (s.download_count, s.max_downloads)) = some (2, some 1) ∧
    1 < 2 := by
  refine ⟨by decide, by decide, by decide, by decide, by decide, by decide⟩

/-- Helper: a conditional row update commutes with find? when the update
preserves the selection predicate (an UPDATE ... WHERE key seen through a
later SELECT ... WHERE key). -/
theorem find?_map_cond {α : Type} (l : List α) (p : α → Bool) (f : α → α)
    (hf : ∀ a, p (f a) = p a) :
    (l.map (fun a => if p a then f a else a)).find? p = (l.find? p).map f := by
  induction l with
  | nil => rfl
  | cons a t ih =>
    by_cases h : p a
    · simp [List.find?_cons_of_pos, h, hf]
    · simp [List.find?_cons_of_neg, h, hf, ih]

/-- C4: Upload quota admission is atomic.  If the user's storage_used plus
the upload size exceeds storage_quota, uploadFile aborts with quotaExceeded
and the rolled-back transaction leaves the database — rows, ledger and
storage backend alike — unchanged; otherwise it commits exactly one File
row, exactly one FileVersion row at version 1, writes exactly one backend
object, and raises storage_used by exactly the upload size. -/
theorem upload_quota_admission (hashFn : List Nat → Nat) (db : DB)
    (userId : Nat) (bytes : List Nat) (folderId : Option Nat)
    (newFileId : Nat) (u : UserRow)
    (hu : findUser db userId = some u) (hnn : 0 ≤ u.storage_used) :
    (u.storage_used + (bytes.length : Int) > u.storage_quota →
      uploadFile hashFn db userId bytes folderId newFileId =
        .error .quotaExceeded ∧
      applyTx db (fun d => uploadFile hashFn d userId bytes folderId newFileId) = db) ∧
    (u.storage_used + (bytes.length : Int) ≤ u.storage_quota →
      ∃ db2, uploadFile hashFn db userId bytes folderId newFileId = .ok db2 ∧
        db2.files = db.files ++
          [{ fid := newFileId, user_id := userId, folder_id := folderId,
             size := bytes.length, hash := hashFn bytes, is_deleted := false }] ∧
        db2.file_versions = db.file_versions ++
          [{ file_id := newFileId, version := 1, size := bytes.length,
             hash := hashFn bytes }] ∧
        db2.backend = db.backend ++ [(newFileId, bytes)] ∧
        db2.folders = db.folders ∧ db2.shares = db.shares ∧
        findUser db2 userId =
          some { u with storage_used := u.storage_used + (bytes.length : Int) }) := by
  unfold findUser at hu
  constructor
  · intro hover
    have h1 : uploadFile hashFn db userId bytes folderId newFileId =
        .error .quotaExceeded := by
      simp only [uploadFile, hu]
      rw [if_pos hover]
    refine ⟨h1, ?_⟩
    simp only [applyTx, h1]
  · intro hle
    have hnot : ¬ u.storage_used + (bytes.length : Int) > u.storage_quota := by
      omega
    have hnot2 : ¬ u.storage_used + (bytes.length : Int) < 0 := by
      have hl : (0 : Int) ≤ (bytes.length : Int) := Int.ofNat_nonneg _
      omega
    refine ⟨{ db with
        users := db.users.map (fun v =>
          if v.uid == userId then
            { v with storage_used := v.storage_used + (bytes.length : Int) }
          else v),
        backend := db.backend ++ [(newFileId, bytes)],
        files := db.files ++
          [{ fid := newFileId, user_id := userId, folder_id := folderId,
             size := bytes.length, hash := hashFn bytes, is_deleted := false }],
        file_versions := db.file_versions ++
          [{ file_id := newFileId, version := 1, size := bytes.length,
             hash := hashFn bytes }] }, ?_, rfl, rfl, rfl, rfl, rfl, ?_⟩
    · simp only [uploadFile, storageAdjust, hu]
      rw [if_neg hnot, if_neg hnot2]
    · unfold findUser
      simp only []
      rw [find?_map_cond db.users (fun v => v.uid == userId)
            (fun v => { v with storage_used := v.storage_used + (bytes.length : Int) })
            (fun a => rfl), hu]
      rfl

/-- A user with a 5-byte quota and an empty account, for the C4 ground check. -/
def c4db : DB :=
  { users := [{ uid := 1, storage_used := 0, storage_quota := 5 }],
    folders := [], files := [], file_versions := [], shares := [], backend := [] }

/-- C4 ground check: on a user with 5 free bytes a 10-byte upload is refused
leaving everything untouched, and a 3-byte upload commits one file row, one
version row, one backend object and a ledger of 3. -/
theorem upload_quota_admission_witness :
    (uploadFile demoHash c4db 1 [0, 1, 2, 3, 4, 5, 6, 7, 8, 9] none 50 =
        .error .quotaExceeded ∧
      applyTx c4db (fun d =>
        uploadFile demoHash d 1 [0, 1, 2, 3, 4, 5, 6, 7, 8, 9] none 50) = c4db) ∧
    (∃ db2, uploadFile demoHash c4db 1 [7, 7, 7] none 50 = .ok db2 ∧
      db2.files = c4db.files ++
        [{ fid := 50, user_id := 1, folder_id := none,
           size := 3, hash := demoHash [7, 7, 7], is_deleted := false }] ∧
      db2.file_versions = c4db.file_versions ++
        [{ file_id := 50, version := 1, size := 3, hash := demoHash [7, 7, 7] }] ∧
      db2.backend = c4db.backend ++ [(50, [7, 7, 7])] ∧
      db2.folders = c4db.folders ∧ db2.shares = c4db.shares ∧
      findUser db2 1 = some { uid := 1, storage_used := 0 + ((3 : Nat) : Int),
                              storage_quota := 5 }) := by
  constructor
  · exact (upload_quota_admission demoHash c4db 1 [0, 1, 2, 3, 4, 5, 6, 7, 8, 9]
      none 50 { uid := 1, storage_used := 0, storage_quota := 5 }
      rfl (by decide)).1 (by decide)
  · exact (upload_quota_admission demoHash c4db 1 [7, 7, 7]
      none 50 { uid := 1, storage_used := 0, storage_quota := 5 }
      rfl (by decide)).2 (by decide)

/-- C5: validateShare applies its checks in the order existence, revoked
(is_active false), expired, exhausted, password.  Each clause fires
regardless of everything after it in the order: a revoked share reports
notActive whatever its expiry, limit or password; an expired share reports
expired for every supplied password and every password comparison, the
correct one included; an exhausted share reports limitReached before any
password handling; only a live, unexpired, unexhausted share reaches the
password check. -/
theorem share_check_order (db : DB) (bcmp : String → String → Bool)
    (now : Int) (token : String) (password : Option String) :
    (getShareByToken db token = none →
      validateShare db bcmp now token password = .notFound) ∧
    (∀ s, getShareByToken db token = some s →
      (s.is_active = false →
        validateShare db bcmp now token password = .notActive) ∧
      (s.is_active = true → shareExpired s now = true →
        validateShare db bcmp now token password = .expired) ∧
      (s.is_active = true → shareExpired s now = false →
        shareExhausted s = true →
        validateShare db bcmp now token password = .limitReached) ∧
      (s.is_active = true → shareExpired s now = false →
        shareExhausted s = false →
        validateShare db bcmp now token password =
          (match s.password_hash, password with
           | none, _ => .valid s
           | some _, none => .passwordRequired
           | some h, some p =>
             if bcmp p h then .valid s else .invalidPassword))) := by
  constructor
  · intro h
    simp only [validateShare, h]
  · intro s hs
    refine ⟨?_, ?_, ?_, ?_⟩
    · intro ha
      simp [validateShare, hs, ha]
    · intro ha hexp
      simp [validateShare, hs, ha, hexp]
    · intro ha hexp hexh
      simp [validateShare, hs, ha, hexp, hexh]
    · intro ha hexp hexh
      cases hph : s.password_hash with
      | none => simp [validateShare, hs, ha, hexp, hexh, hph]
      | some h =>
        cases hpw : password with
        | none => simp [validateShare, hs, ha, hexp, hexh, hph]
        | some p => simp [validateShare, hs, ha, hexp, hexh, hph]

/-- A password-protected share whose expiry lies in the past. -/
def c5share : ShareRow :=
  { sid := 40, file_id := 20, user_id := 1, share_token := "tok",
    password_hash := some "pw", expires_at := some 5, max_downloads := none,
    download_count := 0, is_active := true }

/-- The state holding c5share. -/
def c5db : DB :=
  { users := [{ uid := 1, storage_used := 3, storage_quota := 100 }],
    folders := [],
    files := [{ fid := 20, user_id := 1, folder_id := none, size := 3,
                hash := 5, is_deleted := false }],
    file_versions := [], shares := [c5share], backend := [] }

/-- C5 ground check: at time 100 the share that expired at time 5 answers
expired even to the correct password. -/
theorem share_check_order_witness :
    validateShare c5db eqCmp 100 "tok" (some "pw") = .expired :=
  ((share_check_order c5db eqCmp 100 "tok" (some "pw")).2 c5share
    (by decide)).2.1 (by decide) (by decide)

/-- C7: Cycle prevention.  When the destination parent is the folder itself,
or is a live folder whose materialized path extends the folder's own path (a
descendant, decided by path-prefix containment), moveFolder fails with one of
the two conflict errors — cannot move to itself, cannot move to its own
child — and the rolled-back transaction changes no row. -/
theorem move_cycle_rejected (db : DB) (folderId userId : Nat)
    (newParentId : Option Nat) (f : FolderRow)
    (hf : db.folders.find? (fun fo =>
      fo.foid == folderId && fo.user_id == userId && !fo.is_deleted) = some f)
    (hcase : newParentId = some folderId ∨
      ∃ pid p, newParentId = some pid ∧
        db.folders.find? (fun fo =>
          fo.foid == pid && fo.user_id == userId && !fo.is_deleted) = some p ∧
        strStarts f.path p.path = true) :
    (moveFolder db folderId userId newParentId = .error .cannotMoveToSelf ∨
     moveFolder db folderId userId newParentId = .error .cannotMoveToChild) ∧
    applyTx db (fun d => moveFolder d folderId userId newParentId) = db := by
  have hmain : moveFolder db folderId userId newParentId =
        .error .cannotMoveToSelf ∨
      moveFolder db folderId userId newParentId = .error .cannotMoveToChild := by
    rcases hcase with hself | ⟨pid, p, hpid, hp, hpref⟩
    · left
      simp [moveFolder, hf, hself]
    · by_cases hpe : pid = folderId
      · left
        subst hpe
        simp [moveFolder, hf, hpid]
      · right
        subst hpid
        simp [moveFolder, hf, hp, hpref, hpe]
  refine ⟨hmain, ?_⟩
  rcases hmain with h | h <;> simp [applyTx, h]

/-- A folder A with a child B, for the C7 ground check. -/
def c7db : DB :=
  { users := [{ uid := 1, storage_used := 0, storage_quota := 100 }],
    folders := [{ foid := 1, user_id := 1, parent_id := none, name := "A",
                  path := "/A/", is_deleted := false },
                { foid := 2, user_id := 1, parent_id := some 1, name := "B",
                  path := "/A/B/", is_deleted := false }],
    files := [], file_versions := [], shares := [], backend := [] }

/-- C7 ground check: moving A under its own child B is rejected and the
state is untouched. -/
theorem move_cycle_rejected_witness :
    (moveFolder c7db 1 1 (some 2) = .error DbError.cannotMoveToSelf ∨
     moveFolder c7db 1 1 (some 2) = .error DbError.cannotMoveToChild) ∧
    applyTx c7db (fun d => moveFolder d 1 1 (some 2)) = c7db :=
  move_cycle_rejected c7db 1 1 (some 2)
    { foid := 1, user_id := 1, parent_id := none, name := "A",
      path := "/A/", is_deleted := false }
    (by decide)
    (Or.inr ⟨2,
      { foid := 2, user_id := 1, parent_id := some 1, name := "B",
        path := "/A/B/", is_deleted := false },
      rfl, by decide, by decide⟩)

/-- C9: A share that validates still never serves a soft-deleted file.
validateShare reads only the shares table — any state with the same shares
rows validates identically, whatever the files table says — but both public
access paths re-resolve the file with is_deleted = false, so when no live
row carries the shared file id, the metadata endpoint answers fileGone and
the download endpoint answers fileMissing without incrementing anything. -/
theorem soft_deleted_file_not_served (db : DB) (bcmp : String → String → Bool)
    (now : Int) (token : String) (password : Option String) (s : ShareRow)
    (hv : validateShare db bcmp now token password = .valid s)
    (hgone : db.files.find? (fun f => f.fid == s.file_id && !f.is_deleted) = none) :
    getSharedFile db bcmp now token password = .fileGone ∧
    downloadSharedFile db bcmp now token password = (db, .fileMissing) ∧
    (∀ db2 : DB, db2.shares = db.shares →
      validateShare db2 bcmp now token password = .valid s) := by
  refine ⟨?_, ?_, ?_⟩
  · simp [getSharedFile, hv, hgone]
  · simp [downloadSharedFile, hv, hgone]
  · intro db2 hsh
    have h2 : validateShare db2 bcmp now token password =
        validateShare db bcmp now token password := by
      simp [validateShare, getShareByToken, hsh]
    rw [h2, hv]

/-- A fully valid share pointing at a soft-deleted file. -/
def c9share : ShareRow :=
  { sid := 41, file_id := 21, user_id := 1, share_token := "tk9",
    password_hash := none, expires_at := none, max_downloads := none,
    download_count := 0, is_active := true }

/-- The state holding c9share over a soft-deleted file. -/
def c9db : DB :=
  { users := [{ uid := 1, storage_used := 0, storage_quota := 100 }],
    folders := [],
    files := [{ fid := 21, user_id := 1, folder_id := none, size := 3,
                hash := 5, is_deleted := true }],
    file_versions := [], shares := [c9share], backend := [] }

/-- C9 ground check: the share over the soft-deleted file 21 validates but
neither endpoint serves the file. -/
theorem soft_deleted_file_not_served_witness :
    getSharedFile c9db eqCmp 0 "tk9" none = .fileGone ∧
    downloadSharedFile c9db eqCmp 0 "tk9" none = (c9db, .fileMissing) :=
  ⟨(soft_deleted_file_not_served c9db eqCmp 0 "tk9" none c9share
      (by decide) (by decide)).1,
   (soft_deleted_file_not_served c9db eqCmp 0 "tk9" none c9share
      (by decide) (by decide)).2.1⟩

/-- Helper: mapping over an Except yields ok only from an ok source. -/
theorem exceptMap_ok {ε α β : Type} (e : Except ε α) (g : α → β) (y : β)
    (h : e.map g = .ok y) : ∃ x, e = .ok x ∧ g x = y := by
  cases e with
  | error err => simp [Except.map] at h
  | ok x => exact ⟨x, rfl, by simpa [Except.map] using h⟩

/-- Helper: the ledger update touches only the users table. -/
theorem storageAdjust_files (d : DB) (uid : Nat) (delta : Int) (d2 : DB)
    (h : storageAdjust d uid delta = .ok d2) : d2.files = d.files := by
  unfold storageAdjust at h
  split at h
  · rw [← Except.ok.inj h]
  · split at h
    · exact absurd h (by simp)
    · rw [← Except.ok.inj h]

/-- Helper: a committed deleteDuplicates leaves the files table equal to the
soft-delete map over the requested live rows. -/
theorem deleteDuplicates_ok_files (db : DB) (userId : Nat) (ids : List Nat)
    (db1 : DB) (c : Nat) (sp : Int)
    (h : deleteDuplicates db userId ids = .ok (db1, c, sp)) :
    db1.files = db.files.map (fun f =>
      if ids.contains f.fid && f.user_id == userId && !f.is_deleted then
        { f with is_deleted := true }
      else f) := by
  unfold deleteDuplicates at h
  simp only [] at h
  split at h
  · obtain ⟨db3, hsa, hg⟩ := exceptMap_ok _ _ _ h
    have hdb : db3 = db1 := (Prod.mk.inj hg).1
    subst hdb
    exact storageAdjust_files _ _ _ _ hsa
  · have hdb := (Prod.mk.inj (Except.ok.inj h)).1
    rw [← hdb]

/-- C10: deleteDuplicates is idempotent for the quota.  After a committed
bulk delete, running it again with the same ids (all of them now
soft-deleted) deletes zero rows, reports zero space freed and leaves the
state — the ledger included — exactly as it was. -/
theorem delete_duplicates_idempotent (db : DB) (userId : Nat)
    (ids : List Nat) (db1 : DB) (c : Nat) (sp : Int)
    (h : deleteDuplicates db userId ids = .ok (db1, c, sp)) :
    deleteDuplicates db1 userId ids = .ok (db1, 0, 0) := by
  have hfiles := deleteDuplicates_ok_files db userId ids db1 c sp h
  have hnomatch : ∀ f ∈ db1.files,
      (ids.contains f.fid && f.user_id == userId && !f.is_deleted) = false := by
    intro f hfmem
    rw [hfiles] at hfmem
    obtain ⟨g, hg, hfeq⟩ := List.mem_map.mp hfmem
    subst hfeq
    by_cases hpg : (ids.contains g.fid && g.user_id == userId && !g.is_deleted) = true
    · rw [if_pos hpg]
      simp
    · rw [if_neg hpg]
      simpa using hpg
  have hfe : db1.files.filter (fun f =>
      ids.contains f.fid && f.user_id == userId && !f.is_deleted) = [] := by
    rw [List.filter_eq_nil_iff]
    intro a ha
    simp only [hnomatch a ha]
    simp
  have hmapid : db1.files.map (fun f =>
      if ids.contains f.fid && f.user_id == userId && !f.is_deleted then
        { f with is_deleted := true }
      else f) = db1.files := by
    rw [List.map_congr_left (g := fun a => a) ?_, List.map_id']
    intro a ha
    rw [if_neg (by rw [hnomatch a ha]; exact Bool.false_ne_true)]
  unfold deleteDuplicates
  simp only [hfe, hmapid, List.map_nil, List.sum_nil, List.length_nil]
  rw [if_neg (by omega)]

/-- One user with a single 4-byte live file and a consistent ledger. -/
def c10db0 : DB :=
  { users := [{ uid := 1, storage_used := 4, storage_quota := 100 }],
    folders := [],
    files := [{ fid := 10, user_id := 1, folder_id := none, size := 4,
                hash := 9, is_deleted := false }],
    file_versions := [], shares := [], backend := [] }

/-- The state after bulk-deleting file 10 of c10db0. -/
def c10db1 : DB :=
  { users := [{ uid := 1, storage_used := 0, storage_quota := 100 }],
    folders := [],
    files := [{ fid := 10, user_id := 1, folder_id := none, size := 4,
                hash := 9, is_deleted := true }],
    file_versions := [], shares := [], backend := [] }

/-- C10 ground check: the second bulk delete of file 10 reports 0 rows and
0 bytes and changes nothing. -/
theorem delete_duplicates_idempotent_witness :
    deleteDuplicates c10db1 1 [10] = .ok (c10db1, 0, 0) :=
  delete_duplicates_idempotent c10db0 1 [10] c10db1 1 4 (by decide)

/-- Helper: a list holding two distinct elements has length above one. -/
theorem one_lt_length_of_two_mem {α : Type} {l : List α} {a b : α}
    (ha : a ∈ l) (hb : b ∈ l) (hne : a ≠ b) : 1 < l.length := by
  cases l with
  | nil => cases ha
  | cons x t =>
    cases t with
    | nil =>
      simp only [List.mem_singleton] at ha hb
      exact absurd (ha.trans hb.symm) hne
    | cons y s =>
      simp only [List.length_cons]
      omega

/-- Helper: filtering by a predicate that only the row with a given unique
file id satisfies returns exactly that row. -/
theorem filter_eq_singleton_of_key {l : List FileRow} {f1 : FileRow}
    (hnd : (l.map (fun f => f.fid)).Nodup) (h1 : f1 ∈ l)
    (p : FileRow → Bool) (hp1 : p f1 = true)
    (hkey : ∀ f ∈ l, p f = true → f.fid = f1.fid) :
    l.filter p = [f1] := by
  induction l with
  | nil => cases h1
  | cons a t ih =>
    rw [List.map_cons, List.nodup_cons] at hnd
    obtain ⟨hna, hndt⟩ := hnd
    rcases List.mem_cons.mp h1 with h1a | h1t
    · subst h1a
      rw [List.filter_cons_of_pos hp1]
      have ht : t.filter p = [] := by
        rw [List.filter_eq_nil_iff]
        intro f hf hpf
        exact hna (hkey f (List.mem_cons_of_mem _ hf) hpf ▸
          List.mem_map_of_mem (fun f => f.fid) hf)
      rw [ht]
    · have hpa : p a = false := by
        cases hpae : p a with
        | false => rfl
        | true =>
          exact absurd
            (by rw [hkey a (List.mem_cons_self a t) hpae]
                exact List.mem_map_of_mem (fun f => f.fid) h1t) hna
      rw [List.filter_cons_of_neg (by simp [hpa])]
      exact ih hndt h1t (fun f hf hpf => hkey f (List.mem_cons_of_mem a hf) hpf)

/-- C8: Duplicate index correctness.  Two live files of the same user whose
hashes come from the same content bytes share one contentHash and land in a
common group of findDuplicates; bulk-deleting exactly the first one through
deleteDuplicates commits, reports one deleted row and exactly its sizeBytes
freed, marks that row deleted, keeps the second row live and untouched, and
lowers storage_used by exactly the first file's size. -/
theorem duplicate_group_and_bulk_delete (hashFn : List Nat → Nat) (db : DB)
    (userId : Nat) (bytes : List Nat) (u : UserRow) (f1 f2 : FileRow)
    (hu : findUser db userId = some u)
    (h1 : f1 ∈ db.files) (h2 : f2 ∈ db.files)
    (hu1 : f1.user_id = userId) (hu2 : f2.user_id = userId)
    (hd1 : f1.is_deleted = false) (hd2 : f2.is_deleted = false)
    (hh1 : f1.hash = hashFn bytes) (hh2 : f2.hash = hashFn bytes)
    (hne : f1.fid ≠ f2.fid)
    (hnd : (db.files.map (fun f => f.fid)).Nodup)
    (hpos : 0 < f1.size)
    (hle : (f1.size : Int) ≤ u.storage_used) :
    f1.hash = f2.hash ∧
    (∃ g, g ∈ findDuplicates db userId ∧ f1 ∈ g ∧ f2 ∈ g) ∧
    (∃ db2, deleteDuplicates db userId [f1.fid] = .ok (db2, 1, (f1.size : Int)) ∧
      { f1 with is_deleted := true } ∈ db2.files ∧
      f2 ∈ db2.files ∧
      findUser db2 userId =
        some { u with storage_used := u.storage_used - (f1.size : Int) }) := by
  unfold findUser at hu
  have hhash : f1.hash = f2.hash := hh1.trans hh2.symm
  have hmem1 : f1 ∈ userLiveFiles db userId := by
    unfold userLiveFiles
    exact List.mem_filter.mpr ⟨h1, by simp [hu1, hd1]⟩
  have hmem2 : f2 ∈ userLiveFiles db userId := by
    unfold userLiveFiles
    exact List.mem_filter.mpr ⟨h2, by simp [hu2, hd2]⟩
  have hg1 : f1 ∈ (userLiveFiles db userId).filter (fun f => f.hash == f1.hash) :=
    List.mem_filter.mpr ⟨hmem1, by simp⟩
  have hg2 : f2 ∈ (userLiveFiles db userId).filter (fun f => f.hash == f1.hash) :=
    List.mem_filter.mpr ⟨hmem2, by simp [hhash]⟩
  have hlen : 1 <
      ((userLiveFiles db userId).filter (fun f => f.hash == f1.hash)).length :=
    one_lt_length_of_two_mem hg1 hg2 (fun he => hne (congrArg FileRow.fid he))
  refine ⟨hhash, ⟨_, ?_, hg1, hg2⟩, ?_⟩
  · unfold findDuplicates
    simp only []
    apply List.mem_map.mpr
    refine ⟨f1.hash, List.mem_filter.mpr ⟨?_, ?_⟩, rfl⟩
    · exact List.mem_dedup.mpr (List.mem_map_of_mem (fun f => f.hash) hmem1)
    · exact decide_eq_true hlen
  · have hp1 : ([f1.fid].contains f1.fid && f1.user_id == userId &&
        !f1.is_deleted) = true := by
      simp [hu1, hd1]
    have hkey : ∀ f ∈ db.files,
        ([f1.fid].contains f.fid && f.user_id == userId && !f.is_deleted) = true →
        f.fid = f1.fid := by
      intro f hf hpf
      simp only [List.contains_cons, List.contains_nil, Bool.or_false,
        Bool.and_eq_true, beq_iff_eq] at hpf
      exact hpf.1.1
    have hfilter : db.files.filter (fun f =>
        [f1.fid].contains f.fid && f.user_id == userId && !f.is_deleted) = [f1] :=
      filter_eq_singleton_of_key hnd h1 _ hp1 hkey
    have hp2 : ([f1.fid].contains f2.fid && f2.user_id == userId &&
        !f2.is_deleted) = false := by
      apply Bool.eq_false_iff.mpr
      intro habs
      simp only [List.contains_cons, List.contains_nil, Bool.or_false,
        Bool.and_eq_true, beq_iff_eq] at habs
      exact hne habs.1.1.symm
    refine ⟨{ db with
        users := db.users.map (fun v =>
          if v.uid == userId then
            { v with storage_used := v.storage_used + -(f1.size : Int) }
          else v),
        files := db.files.map (fun f =>
          if [f1.fid].contains f.fid && f.user_id == userId && !f.is_deleted then
            { f with is_deleted := true }
          else f) }, ?_, ?_, ?_, ?_⟩
    · unfold deleteDuplicates storageAdjust
      simp only [hfilter, hu, List.map_cons, List.map_nil, List.sum_cons,
        List.sum_nil, List.length_cons, List.length_nil, add_zero]
      rw [if_pos (by exact_mod_cast hpos : (0 : Int) < (f1.size : Int)),
        if_neg (by omega : ¬ u.storage_used + -(f1.size : Int) < 0)]
      rfl
    · have himg1 : (fun f : FileRow =>
          if [f1.fid].contains f.fid && f.user_id == userId && !f.is_deleted then
            { f with is_deleted := true }
          else f) f1 = { f1 with is_deleted := true } := by
        simp only []
        rw [if_pos hp1]
      exact himg1 ▸ List.mem_map_of_mem _ h1
    · have himg2 : (fun f : FileRow =>
          if [f1.fid].contains f.fid && f.user_id == userId && !f.is_deleted then
            { f with is_deleted := true }
          else f) f2 = f2 := by
        simp only []
        rw [if_neg (by rw [hp2]; exact Bool.false_ne_true)]
      exact himg2 ▸ List.mem_map_of_mem _ h2
    · unfold findUser
      simp only []
      rw [find?_map_cond db.users (fun v => v.uid == userId)
            (fun v => { v with storage_used := v.storage_used + -(f1.size : Int) })
            (fun a => rfl), hu, Option.map_some']
      rw [show u.storage_used + -(f1.size : Int) =
            u.storage_used - (f1.size : Int) from by omega]

/-- The first of two byte-identical 4-byte files. -/
def c8f1 : FileRow :=
  { fid := 10, user_id := 1, folder_id := none, size := 4,
    hash := demoHash [9, 9, 9, 9], is_deleted := false }

/-- The second of two byte-identical 4-byte files. -/
def c8f2 : FileRow :=
  { fid := 11, user_id := 1, folder_id := none, size := 4,
    hash := demoHash [9, 9, 9, 9], is_deleted := false }

/-- A user owning the two byte-identical files with a consistent ledger. -/
def c8db : DB :=
  { users := [{ uid := 1, storage_used := 10, storage_quota := 100 }],
    folders := [],
    files := [c8f1, c8f2,
              { fid := 12, user_id := 1, folder_id := none, size := 2,
                hash := demoHash [5], is_deleted := false }],
    file_versions := [], shares := [], backend := [] }

/-- The expected ledger row after bulk-deleting c8f1: 10 minus 4 bytes. -/
def c8postUser : UserRow :=
  { uid := 1, storage_used := (10 : Int) - ((4 : Nat) : Int),
    storage_quota := 100 }

/-- C8 ground check: the two byte-identical files of c8db group together and
bulk-deleting the first frees exactly its 4 bytes, leaving the second live. -/
theorem duplicate_group_and_bulk_delete_witness :
    c8f1.hash = c8f2.hash ∧
    (∃ g, g ∈ findDuplicates c8db 1 ∧ c8f1 ∈ g ∧ c8f2 ∈ g) ∧
    (∃ db2, deleteDuplicates c8db 1 [c8f1.fid] = .ok (db2, 1, (c8f1.size : Int)) ∧
      { c8f1 with is_deleted := true } ∈ db2.files ∧
      c8f2 ∈ db2.files ∧
      findUser db2 1 = some c8postUser) :=
  duplicate_group_and_bulk_delete demoHash c8db 1 [9, 9, 9, 9]
    { uid := 1, storage_used := 10, storage_quota := 100 } c8f1 c8f2
    (by decide) (by decide) (by decide) (by decide) (by decide) (by decide)
    (by decide) (by decide) (by decide) (by decide) (by decide) (by decide)
    (by decide)
